import Mathlib

/-
Verification of the pyspatialopt example script
`examples/binary_mclp_distance_matrix.py`.

The script has three pieces of logic of its own:
  * `generate_binary_coverage_from_dist_matrix` — builds a binary coverage
    model from pairwise facility/demand distance rows;
  * the result-summarizing tail of `binary_mclp_distance_matrix` — given the
    facility ids chosen by the external solver, sums the demand covered and
    turns it into a percentage;
  * the CSV front end of `binary_mclp_distance_matrix` — samples the row at
    index 1 and checks the required field names before building anything.

Python floats are modelled as rationals (ℚ); CSV values are strings.  Python
dicts (insertion ordered, unique keys) are modelled as association lists, and
Python float division, which raises ZeroDivisionError on a zero divisor, is
modelled with `Except`.
-/

namespace PySpatialOpt

/-- One data row of the distance matrix, after the coercions the script
applies at point of use: ids via `str(...)`, demand weight and distance via
`float(...)`. -/
structure Row where
  facility_id : String
  demand_id : String
  demand : ℚ
  distance : ℚ
deriving Repr, DecidableEq

/-- One value of the `demand` mapping of the coverage dictionary: the literal
built at lines 53–58 of the script, with the coverage sub-dictionary
(facility-id keys, all mapped to `1`) modelled by its key list in insertion
order. -/
structure DemandEntry where
  area : ℚ
  demand : ℚ
  serviceableDemand : ℚ
  coverage : List String
deriving Repr, DecidableEq

/-- The `output["demand"]` dictionary: demand-id keys in insertion order. -/
abbrev DemandMap := List (String × DemandEntry)

/-- Python dict lookup on the association-list model. -/
def dictLookup (m : DemandMap) (k : String) : Option DemandEntry :=
  match m with
  | [] => none
  | p :: ps => if p.1 = k then some p.2 else dictLookup ps k

/-- First pass of `generate_binary_coverage_from_dist_matrix` (lines 48–59)
restricted to the demand side: for each row, if the demand id has not been
seen, insert a fresh entry whose weight is this row's weight; later rows for
the same id are ignored. -/
def initDemandEntries (rows : List Row) (acc : DemandMap) : DemandMap :=
  match rows with
  | [] => acc
  | r :: rs =>
    if (dictLookup acc r.demand_id).isSome then initDemandEntries rs acc
    else initDemandEntries rs (acc ++ [(r.demand_id, ⟨0, r.demand, 0, []⟩)])

/-- Facility-id side of the first pass (lines 46, 49, 62–63): the set of
distinct facility ids, kept as a duplicate-free list. -/
def collectFacilityIds (rows : List Row) (acc : List String) : List String :=
  match rows with
  | [] => acc
  | r :: rs =>
    collectFacilityIds rs (if r.facility_id ∈ acc then acc else acc ++ [r.facility_id])

/-- Dict-key insertion for the coverage sub-dictionary: assigning
`coverage[fid] = 1` appends the key when absent and is a no-op when present. -/
def insertCovering (l : List String) (fid : String) : List String :=
  if fid ∈ l then l else l ++ [fid]

/-- Effect of lines 72–74 for one row within threshold: the entry of that
row's demand id gets `serviceableDemand := demand` and the row's facility id
added to its coverage keys. -/
def markCovered (m : DemandMap) (did fid : String) : DemandMap :=
  m.map (fun p =>
    if p.1 = did then
      (p.1, { p.2 with serviceableDemand := p.2.demand,
                       coverage := insertCovering p.2.coverage fid })
    else p)

/-- Second pass (lines 68–74): every row whose distance is ≤ the threshold
(inclusive comparison) marks its demand unit covered by its facility. -/
def applyCoverage (rows : List Row) (dist_threshold : ℚ) (m : DemandMap) : DemandMap :=
  match rows with
  | [] => m
  | r :: rs =>
    applyCoverage rs dist_threshold
      (if r.distance ≤ dist_threshold then markCovered m r.demand_id r.facility_id else m)

/-- Third pass (lines 76–79): running sums of serviceable demand and demand,
in iteration order; the accumulator is the pair
(totalServiceableDemand, totalDemand). -/
def sumTotals (m : DemandMap) (acc : ℚ × ℚ) : ℚ × ℚ :=
  match m with
  | [] => acc
  | p :: ps => sumTotals ps (acc.1 + p.2.serviceableDemand, acc.2 + p.2.demand)

/-- The coverage dictionary returned by the builder (lines 33–44 initialise
it, the passes fill it in). -/
structure CoverageModel where
  version : String
  demand : DemandMap
  totalDemand : ℚ
  totalServiceableDemand : ℚ
  facilities : List String
deriving Repr

/-- `generate_binary_coverage_from_dist_matrix` (lines 13–81) on rows already
coerced to `Row`. -/
def generate_binary_coverage_from_dist_matrix (rows : List Row) (dist_threshold : ℚ) :
    CoverageModel :=
  let d0 := initDemandEntries rows []
  let fac := collectFacilityIds rows []
  let d := applyCoverage rows dist_threshold d0
  let t := sumTotals d (0, 0)
  { version := "1", demand := d, totalDemand := t.2, totalServiceableDemand := t.1,
    facilities := fac }

/-- `not set_facility_id_chosen.isdisjoint(coverage.keys())` (line 135). -/
def coversAny (chosen coverage : List String) : Bool :=
  decide (∃ f ∈ chosen, f ∈ coverage)

/-- Lines 131–136: fold over the demand entries adding the full weight of
each entry whose coverage keys meet the chosen set. -/
def total_demand_covered (m : CoverageModel) (chosen : List String) : ℚ :=
  m.demand.foldl
    (fun acc p => if coversAny chosen p.2.coverage then acc + p.2.demand else acc) 0

/-- The `result_coverage` dictionary built at lines 142–147. -/
structure ResultCoverage where
  number_facility : ℕ
  number_facility_chosen : ℕ
  set_facility_id_chosen : List String
  total_demand : ℚ
  percent_demand_coverage : ℚ
deriving Repr, DecidableEq

/-- Python float division: raises ZeroDivisionError on a zero divisor, never
produces NaN or infinity from a literal zero division. -/
def floatDiv (x y : ℚ) : Except String ℚ :=
  if y = 0 then .error "ZeroDivisionError" else .ok (x / y)

/-- The result-summarizing tail of `binary_mclp_distance_matrix`
(lines 131–148), with the solver's chosen facility-id set as input. -/
def summarize_result (m : CoverageModel) (chosen : List String) (num_facility : ℕ) :
    Except String ResultCoverage :=
  (floatDiv (100 * total_demand_covered m chosen) m.totalDemand).map
    (fun pct =>
      { number_facility := num_facility,
        number_facility_chosen := chosen.length,
        set_facility_id_chosen := chosen,
        total_demand := m.totalDemand,
        percent_demand_coverage := pct })

/-- A raw CSV data row as loaded by `csv.DictReader`: field name to string
value, one pair per column. -/
abbrev RawRow := List (String × String)

/-- How the front end of `binary_mclp_distance_matrix` can fail before the
coverage model is built: `indexError` is the uncaught IndexError raised by
`dict_pairwise_distance[1]`, `exitCode n` is `sys.exit(n)`. -/
inductive FrontError where
  | indexError : FrontError
  | exitCode : ℕ → FrontError
deriving Repr, DecidableEq

/-- `field in item_pairwise_distance.keys()` (line 103). -/
def rowHasField (sample : RawRow) (field : String) : Bool :=
  decide (field ∈ sample.map Prod.fst)

/-- Lines 95–108 of `binary_mclp_distance_matrix`: sample the row at index 1
(IndexError when there is none), check every required field name against the
sample row (first missing field prints an error and calls `sys.exit(0)`), and
only then build the coverage model.  The `str`/`float` coercion of a raw row
is passed in as `parse`; its details do not affect the front end. -/
def binary_mclp_check_and_build (raw : List RawRow) (parse : RawRow → Row)
    (service_dist : ℚ) (list_field_req : List String) : Except FrontError CoverageModel :=
  match raw.get? 1 with
  | none => .error .indexError
  | some sample =>
    if list_field_req.all (fun f => rowHasField sample f) then
      .ok (generate_binary_coverage_from_dist_matrix (raw.map parse) service_dist)
    else .error (.exitCode 0)

/-- The first row of the input pairing a given demand id, whose weight is the
one the builder stores for that id. -/
def firstRowFor (rows : List Row) (did : String) : Option Row :=
  rows.find? (fun r => decide (r.demand_id = did))

/-- The example row list of the specification:
(F1,D1,10,4000), (F2,D1,10,6000), (F1,D2,5,4000). -/
def exampleRows : List Row :=
  [⟨"F1", "D1", 10, 4000⟩, ⟨"F2", "D1", 10, 6000⟩, ⟨"F1", "D2", 5, 4000⟩]

/-- A row list whose only demand unit has a negative weight and no facility
within reach. -/
def negativeRow : List Row :=
  [⟨"F1", "D1", -5, 10⟩]

/-- Rows with a duplicated demand id carrying two different weights. -/
def duplicateWeightRows : List Row :=
  [⟨"F1", "D1", 10, 4000⟩, ⟨"F2", "D1", 99, 4000⟩]

/-- A raw CSV row carrying all four default required columns. -/
def sampleRawGood : RawRow :=
  [("facility_id", "F1"), ("demand_id", "D1"), ("demand", "10"), ("distance", "4000")]

/-- A raw CSV row missing the `distance` column. -/
def sampleRawBad : RawRow :=
  [("facility_id", "F1"), ("demand_id", "D1"), ("demand", "10")]

/-- The default `list_field_req` of `binary_mclp_distance_matrix`. -/
def defaultReq : List String := ["facility_id", "demand_id", "demand", "distance"]

/-- A trivial stand-in for the `str`/`float` coercion of a raw row. -/
def dummyParse : RawRow → Row := fun _ => ⟨"", "", 0, 0⟩

/-- Lookup is unchanged by appending when the key is already bound. -/
theorem dictLookup_append_of_some {m : DemandMap} {k : String} {e : DemandEntry}
    (h : dictLookup m k = some e) (l : DemandMap) : dictLookup (m ++ l) k = some e := by
  induction m with
  | nil => simp [dictLookup] at h
  | cons p ps ih =>
    by_cases hp : p.1 = k
    · simp [dictLookup, hp] at h ⊢; exact h
    · simp [dictLookup, hp] at h ⊢; exact ih h

/-- Lookup passes over a prefix that does not bind the key. -/
theorem dictLookup_append_of_none {m : DemandMap} {k : String}
    (h : dictLookup m k = none) (l : DemandMap) : dictLookup (m ++ l) k = dictLookup l k := by
  induction m with
  | nil => simp
  | cons p ps ih =>
    by_cases hp : p.1 = k
    · simp [dictLookup, hp] at h
    · simp [dictLookup, hp] at h ⊢; exact ih h

/-- A key is bound exactly when it occurs among the keys. -/
theorem dictLookup_isSome_iff {m : DemandMap} {k : String} :
    (dictLookup m k).isSome ↔ k ∈ m.map Prod.fst := by
  induction m with
  | nil => simp [dictLookup]
  | cons p ps ih =>
    by_cases hp : p.1 = k
    · simp [dictLookup, hp]
    · simp [dictLookup, hp, ih, Ne.symm hp]

/-- A key bound before the initialization pass keeps its entry: later rows
never overwrite an existing demand entry. -/
theorem initDemandEntries_lookup_of_some {rows : List Row} {acc : DemandMap} {did : String}
    {e : DemandEntry} (h : dictLookup acc did = some e) :
    dictLookup (initDemandEntries rows acc) did = some e := by
  induction rows generalizing acc with
  | nil => simpa [initDemandEntries] using h
  | cons r rs ih =>
    by_cases hs : (dictLookup acc r.demand_id).isSome
    · simpa [initDemandEntries, hs] using ih h
    · simpa [initDemandEntries, hs] using ih (dictLookup_append_of_some h _)

/-- On a fresh key, the initialization pass stores the entry built from the
first row pairing that demand id, or nothing when no row does. -/
theorem initDemandEntries_lookup_of_none (rows : List Row) {acc : DemandMap} {did : String}
    (h : dictLookup acc did = none) :
    dictLookup (initDemandEntries rows acc) did =
      (firstRowFor rows did).map (fun r => ⟨0, r.demand, 0, []⟩) := by
  induction rows generalizing acc with
  | nil => simpa [initDemandEntries, firstRowFor] using h
  | cons r rs ih =>
    by_cases hs : (dictLookup acc r.demand_id).isSome
    · have hne : r.demand_id ≠ did := by
        intro hEq; rw [hEq, h] at hs; simp at hs
      rw [firstRowFor, List.find?_cons_of_neg _ (by simpa using hne)]
      simpa [initDemandEntries, hs, firstRowFor] using ih h
    · by_cases hid : r.demand_id = did
      · subst hid
        have hsome : dictLookup (acc ++ [(r.demand_id, ⟨0, r.demand, 0, []⟩)])
            r.demand_id = some ⟨0, r.demand, 0, []⟩ := by
          rw [dictLookup_append_of_none h]
          simp [dictLookup]
        rw [firstRowFor, List.find?_cons_of_pos _ (by simp)]
        simpa [initDemandEntries, hs] using initDemandEntries_lookup_of_some hsome
      · have hnone : dictLookup (acc ++ [(r.demand_id, ⟨0, r.demand, 0, []⟩)]) did = none := by
          rw [dictLookup_append_of_none h]
          simp [dictLookup, hid]
        rw [firstRowFor, List.find?_cons_of_neg _ (by simpa using hid)]
        simpa [initDemandEntries, hs, firstRowFor] using ih hnone

/-- Key membership after the initialization pass. -/
theorem initDemandEntries_keys_mem {rows : List Row} {acc : DemandMap} {did : String} :
    did ∈ (initDemandEntries rows acc).map Prod.fst ↔
      did ∈ acc.map Prod.fst ∨ did ∈ rows.map Row.demand_id := by
  induction rows generalizing acc with
  | nil => simp [initDemandEntries]
  | cons r rs ih =>
    by_cases hs : (dictLookup acc r.demand_id).isSome
    · have hr : r.demand_id ∈ acc.map Prod.fst := dictLookup_isSome_iff.mp hs
      by_cases hid : did = r.demand_id
      · subst hid
        simp [initDemandEntries, hs, ih, hr]
      · simp [initDemandEntries, hs, ih, hid]
    · simp only [initDemandEntries, hs, if_false, Bool.false_eq_true]
      rw [ih]
      by_cases hid : did = r.demand_id <;> simp [hid]

/-- The initialization pass never duplicates a demand-id key. -/
theorem initDemandEntries_keys_nodup {rows : List Row} {acc : DemandMap}
    (h : (acc.map Prod.fst).Nodup) : ((initDemandEntries rows acc).map Prod.fst).Nodup := by
  induction rows generalizing acc with
  | nil => simpa [initDemandEntries] using h
  | cons r rs ih =>
    by_cases hs : (dictLookup acc r.demand_id).isSome
    · simpa [initDemandEntries, hs] using ih h
    · have hnot : r.demand_id ∉ acc.map Prod.fst := by
        rw [← dictLookup_isSome_iff]; simpa using hs
      have : ((acc ++ [(r.demand_id, (⟨0, r.demand, 0, []⟩ : DemandEntry))]).map
          Prod.fst).Nodup := by
        simpa [List.nodup_append, h] using hnot
      simpa [initDemandEntries, hs] using ih this

/-- Membership in the coverage keys after one dict-key assignment. -/
theorem mem_insertCovering {l : List String} {fid g : String} :
    g ∈ insertCovering l fid ↔ g ∈ l ∨ g = fid := by
  by_cases h : fid ∈ l
  · simp only [insertCovering, if_pos h]
    constructor
    · exact fun hg => Or.inl hg
    · rintro (hg | rfl) <;> assumption
  · simp [insertCovering, if_neg h]

/-- Marking a covered demand unit does not change the key list. -/
theorem markCovered_keys (m : DemandMap) (did fid : String) :
    (markCovered m did fid).map Prod.fst = m.map Prod.fst := by
  induction m with
  | nil => simp [markCovered]
  | cons p ps ih =>
    by_cases hp : p.1 = did <;> simp [markCovered, hp] <;> simpa [markCovered] using ih

/-- Splitting an existential over a cons row list. -/
theorem exists_row_cons {r : Row} {rs : List Row} {p : Row → Prop} :
    (∃ x ∈ r :: rs, p x) ↔ p r ∨ ∃ x ∈ rs, p x := by
  constructor
  · rintro ⟨x, hx, hpx⟩
    rcases List.mem_cons.mp hx with rfl | hmem
    · exact Or.inl hpx
    · exact Or.inr ⟨x, hmem, hpx⟩
  · rintro (hp | ⟨x, hmem, hpx⟩)
    · exact ⟨r, List.mem_cons_self r rs, hp⟩
    · exact ⟨x, List.mem_cons_of_mem r hmem, hpx⟩

/-- Effect of `markCovered` on the marked key: its serviceable demand is set
to its weight and the facility id joins its coverage keys. -/
theorem dictLookup_markCovered_self (m : DemandMap) (did fid : String) :
    dictLookup (markCovered m did fid) did =
      (dictLookup m did).map
        (fun e => ⟨e.area, e.demand, e.demand, insertCovering e.coverage fid⟩) := by
  induction m with
  | nil => simp [markCovered, dictLookup]
  | cons p ps ih =>
    by_cases hp : p.1 = did
    · simp [markCovered, dictLookup, hp]
    · simp only [markCovered, List.map_cons, if_neg hp, dictLookup, hp, if_false]
      simpa [markCovered] using ih

/-- `markCovered` leaves every other key's entry untouched. -/
theorem dictLookup_markCovered_other (m : DemandMap) {did k : String} (fid : String)
    (h : ¬ k = did) : dictLookup (markCovered m did fid) k = dictLookup m k := by
  induction m with
  | nil => simp [markCovered, dictLookup]
  | cons p ps ih =>
    by_cases hp : p.1 = did
    · have hpk : ¬ p.1 = k := fun hEq => h (hEq.symm.trans hp)
      simp only [markCovered, List.map_cons, if_pos hp, dictLookup, if_neg hpk]
      simpa [markCovered] using ih
    · by_cases hpk : p.1 = k
      · simp [markCovered, dictLookup, hp, hpk, h]
      · simp only [markCovered, List.map_cons, if_neg hp, dictLookup, if_neg hpk]
        simpa [markCovered] using ih

/-- The coverage pass does not change the key list. -/
theorem applyCoverage_keys (rows : List Row) (dist_threshold : ℚ) (m : DemandMap) :
    (applyCoverage rows dist_threshold m).map Prod.fst = m.map Prod.fst := by
  induction rows generalizing m with
  | nil => simp [applyCoverage]
  | cons r rs ih =>
    by_cases hd : r.distance ≤ dist_threshold
    · simpa [applyCoverage, hd] using
        (ih (markCovered m r.demand_id r.facility_id)).trans (markCovered_keys _ _ _)
    · simpa [applyCoverage, hd] using ih m

/-- A key absent before the coverage pass stays absent. -/
theorem dictLookup_applyCoverage_none {rows : List Row} {dist_threshold : ℚ} {m : DemandMap}
    {did : String} (h : dictLookup m did = none) :
    dictLookup (applyCoverage rows dist_threshold m) did = none := by
  induction rows generalizing m with
  | nil => simpa [applyCoverage] using h
  | cons r rs ih =>
    by_cases hd : r.distance ≤ dist_threshold
    · have h' : dictLookup (markCovered m r.demand_id r.facility_id) did = none := by
        by_cases hk : did = r.demand_id
        · subst hk; rw [dictLookup_markCovered_self, h]; rfl
        · rw [dictLookup_markCovered_other _ _ hk]; exact h
      simpa [applyCoverage, hd] using ih h'
    · simpa [applyCoverage, hd] using ih h

/-- Characterization of the coverage pass on a bound key: the weight is kept,
a facility id is in the final coverage keys iff it was there already or some
processed row pairs it with this demand id within the threshold, and the
serviceable demand becomes the weight exactly when some processed row covers
this demand id. -/
theorem applyCoverage_lookup (dist_threshold : ℚ) (did : String) :
    ∀ (rows : List Row) (m : DemandMap) (e : DemandEntry), dictLookup m did = some e →
    ∃ e', dictLookup (applyCoverage rows dist_threshold m) did = some e' ∧
      e'.area = e.area ∧ e'.demand = e.demand ∧
      (∀ fid, fid ∈ e'.coverage ↔ fid ∈ e.coverage ∨
        ∃ r ∈ rows, r.demand_id = did ∧ r.facility_id = fid ∧ r.distance ≤ dist_threshold) ∧
      ((∃ r ∈ rows, r.demand_id = did ∧ r.distance ≤ dist_threshold) →
        e'.serviceableDemand = e.demand) ∧
      ((∀ r ∈ rows, r.demand_id = did → ¬ r.distance ≤ dist_threshold) →
        e'.serviceableDemand = e.serviceableDemand) := by
  intro rows
  induction rows with
  | nil =>
    intro m e h
    refine ⟨e, by simpa [applyCoverage] using h, rfl, rfl, ?_, ?_, fun _ => rfl⟩
    · intro fid; simp
    · rintro ⟨r, hr, -⟩; exact absurd hr (List.not_mem_nil r)
  | cons r rs ih =>
    intro m e h
    by_cases hd : r.distance ≤ dist_threshold
    · by_cases hid : r.demand_id = did
      · subst hid
        have hm' : dictLookup (markCovered m r.demand_id r.facility_id) r.demand_id =
            some ⟨e.area, e.demand, e.demand, insertCovering e.coverage r.facility_id⟩ := by
          rw [dictLookup_markCovered_self, h]; rfl
        obtain ⟨e', he', harea, hdem, hcov, hserv1, hserv2⟩ := ih _ _ hm'
        refine ⟨e', by simpa [applyCoverage, hd] using he', harea, hdem, ?_, ?_, ?_⟩
        · intro fid
          refine Iff.trans (hcov fid) ?_
          rw [exists_row_cons]
          constructor
          · rintro (hins | hr)
            · rcases mem_insertCovering.mp hins with hl | rfl
              · exact Or.inl hl
              · exact Or.inr (Or.inl ⟨rfl, rfl, hd⟩)
            · exact Or.inr (Or.inr hr)
          · rintro (hl | ⟨-, rfl, -⟩ | hr)
            · exact Or.inl (mem_insertCovering.mpr (Or.inl hl))
            · exact Or.inl (mem_insertCovering.mpr (Or.inr rfl))
            · exact Or.inr hr
        · intro _
          by_cases hrs : ∃ r' ∈ rs, r'.demand_id = r.demand_id ∧
              r'.distance ≤ dist_threshold
          · exact hserv1 hrs
          · exact hserv2 fun r' hr' hEq hle => hrs ⟨r', hr', hEq, hle⟩
        · intro hall
          exact absurd hd (hall r (List.mem_cons_self r rs) rfl)
      · have hm' : dictLookup (markCovered m r.demand_id r.facility_id) did = some e := by
          rw [dictLookup_markCovered_other _ _ (fun hEq => hid hEq.symm)]; exact h
        obtain ⟨e', he', harea, hdem, hcov, hserv1, hserv2⟩ := ih _ _ hm'
        refine ⟨e', by simpa [applyCoverage, hd] using he', harea, hdem, ?_, ?_, ?_⟩
        · intro fid
          refine Iff.trans (hcov fid) ?_
          rw [exists_row_cons]
          constructor
          · rintro (hl | hr)
            · exact Or.inl hl
            · exact Or.inr (Or.inr hr)
          · rintro (hl | ⟨hEq, -, -⟩ | hr)
            · exact Or.inl hl
            · exact absurd hEq hid
            · exact Or.inr hr
        · intro hx
          rcases exists_row_cons.mp hx with ⟨hEq, -⟩ | hr
          · exact absurd hEq hid
          · exact hserv1 hr
        · intro hall
          exact hserv2 fun r' hr' hEq => hall r' (List.mem_cons_of_mem r hr') hEq
    · obtain ⟨e', he', harea, hdem, hcov, hserv1, hserv2⟩ := ih _ _ h
      refine ⟨e', by simpa [applyCoverage, hd] using he', harea, hdem, ?_, ?_, ?_⟩
      · intro fid
        refine Iff.trans (hcov fid) ?_
        rw [exists_row_cons]
        constructor
        · rintro (hl | hr)
          · exact Or.inl hl
          · exact Or.inr (Or.inr hr)
        · rintro (hl | ⟨-, -, hle⟩ | hr)
          · exact Or.inl hl
          · exact absurd hle hd
          · exact Or.inr hr
      · intro hx
        rcases exists_row_cons.mp hx with ⟨-, hle⟩ | hr
        · exact absurd hle hd
        · exact hserv1 hr
      · intro hall
        exact hserv2 fun r' hr' hEq => hall r' (List.mem_cons_of_mem r hr') hEq

/-- The running-sum pass computes the two component sums. -/
theorem sumTotals_eq (m : DemandMap) (acc : ℚ × ℚ) :
    sumTotals m acc =
      (acc.1 + (m.map (fun p => p.2.serviceableDemand)).sum,
       acc.2 + (m.map (fun p => p.2.demand)).sum) := by
  induction m generalizing acc with
  | nil => simp [sumTotals]
  | cons p ps ih =>
    rw [sumTotals, ih]
    simp only [List.map_cons, List.sum_cons, Prod.mk.injEq]
    constructor <;> dsimp only <;> ring

/-- The covered-demand fold accumulates on top of its initial value. -/
theorem covered_foldl (dlist : DemandMap) (chosen : List String) (a : ℚ) :
    dlist.foldl
      (fun acc p => if coversAny chosen p.2.coverage then acc + p.2.demand else acc) a =
      a + (dlist.map
        (fun p => if coversAny chosen p.2.coverage then p.2.demand else 0)).sum := by
  induction dlist generalizing a with
  | nil => simp
  | cons p ps ih =>
    by_cases hc : coversAny chosen p.2.coverage = true <;>
      simp [List.foldl_cons, hc, ih] <;> ring

/-- `coversAny` decides non-disjointness of the chosen set and the coverage
keys. -/
theorem coversAny_iff {chosen coverage : List String} :
    coversAny chosen coverage = true ↔ ∃ f ∈ chosen, f ∈ coverage := by
  simp [coversAny]

/-- With duplicate-free keys, every stored pair is what lookup returns. -/
theorem dictLookup_of_mem_nodup {m : DemandMap} (hnd : (m.map Prod.fst).Nodup)
    {p : String × DemandEntry} (hp : p ∈ m) : dictLookup m p.1 = some p.2 := by
  induction m with
  | nil => simp at hp
  | cons q qs ih =>
    simp only [List.map_cons, List.nodup_cons] at hnd
    rcases List.mem_cons.mp hp with rfl | hmem
    · simp [dictLookup]
    · have hq : ¬ q.1 = p.1 := by
        intro hEq
        exact hnd.1 (hEq ▸ List.mem_map_of_mem Prod.fst hmem)
      rw [dictLookup, if_neg hq]
      exact ih hnd.2 hmem

/-- Termwise-dominated sums: the sums compare, with equality exactly when
every term agrees. -/
theorem sum_le_sum_with_eq_iff (l : DemandMap)
    (h : ∀ p ∈ l, p.2.serviceableDemand ≤ p.2.demand) :
    (l.map (fun p => p.2.serviceableDemand)).sum ≤ (l.map (fun p => p.2.demand)).sum ∧
    ((l.map (fun p => p.2.serviceableDemand)).sum = (l.map (fun p => p.2.demand)).sum ↔
      ∀ p ∈ l, p.2.serviceableDemand = p.2.demand) := by
  induction l with
  | nil => simp
  | cons p ps ih =>
    obtain ⟨ihle, ihiff⟩ := ih fun q hq => h q (List.mem_cons_of_mem p hq)
    have hple : p.2.serviceableDemand ≤ p.2.demand := h p (List.mem_cons_self p ps)
    simp only [List.map_cons, List.sum_cons]
    refine ⟨add_le_add hple ihle, ?_, ?_⟩
    · intro heq
      have h1 : p.2.serviceableDemand = p.2.demand := by linarith
      have h2 : (ps.map (fun p => p.2.serviceableDemand)).sum =
          (ps.map (fun p => p.2.demand)).sum := by linarith
      intro q hq
      rcases List.mem_cons.mp hq with rfl | hmem
      · exact h1
      · exact ihiff.mp h2 q hmem
    · intro hall
      rw [hall p (List.mem_cons_self p ps),
        ihiff.mpr fun q hq => hall q (List.mem_cons_of_mem p hq)]

/-- Full description of a demand entry of the built coverage model, in terms
of the first row pairing its demand id and of the rows within threshold. -/
theorem generate_demand_lookup (rows : List Row) (dist_threshold : ℚ) (did : String)
    {r : Row} (h : firstRowFor rows did = some r) :
    ∃ e, dictLookup
        (generate_binary_coverage_from_dist_matrix rows dist_threshold).demand did = some e ∧
      e.area = 0 ∧ e.demand = r.demand ∧
      (∀ fid, fid ∈ e.coverage ↔
        ∃ r' ∈ rows, r'.demand_id = did ∧ r'.facility_id = fid ∧
          r'.distance ≤ dist_threshold) ∧
      ((∃ r' ∈ rows, r'.demand_id = did ∧ r'.distance ≤ dist_threshold) →
        e.serviceableDemand = r.demand) ∧
      ((∀ r' ∈ rows, r'.demand_id = did → ¬ r'.distance ≤ dist_threshold) →
        e.serviceableDemand = 0) := by
  have hinit : dictLookup (initDemandEntries rows []) did =
      some ⟨0, r.demand, 0, []⟩ := by
    rw [initDemandEntries_lookup_of_none rows (by rfl), h]; rfl
  obtain ⟨e, he, harea, hdem, hcov, hserv1, hserv2⟩ :=
    applyCoverage_lookup dist_threshold did rows _ _ hinit
  refine ⟨e, ?_, harea, hdem, ?_, hserv1, hserv2⟩
  · simpa [generate_binary_coverage_from_dist_matrix] using he
  · intro fid
    simpa using hcov fid

/-- A bound demand id always has a first row pairing it. -/
theorem generate_demand_lookup_inv {rows : List Row} {dist_threshold : ℚ} {did : String}
    {e : DemandEntry}
    (h : dictLookup
        (generate_binary_coverage_from_dist_matrix rows dist_threshold).demand did = some e) :
    ∃ r, firstRowFor rows did = some r := by
  cases hf : firstRowFor rows did with
  | some r => exact ⟨r, rfl⟩
  | none =>
    have hinit : dictLookup (initDemandEntries rows []) did = none := by
      rw [initDemandEntries_lookup_of_none rows (by rfl), hf]; rfl
    have : dictLookup
        (generate_binary_coverage_from_dist_matrix rows dist_threshold).demand did = none := by
      simpa [generate_binary_coverage_from_dist_matrix] using
        dictLookup_applyCoverage_none hinit
    rw [h] at this
    exact absurd this (by simp)

/-- The demand mapping of the built model is the two passes composed. -/
theorem generate_demand_eq (rows : List Row) (dist_threshold : ℚ) :
    (generate_binary_coverage_from_dist_matrix rows dist_threshold).demand =
      applyCoverage rows dist_threshold (initDemandEntries rows []) := rfl

/-- The totals of the built model are the sums over its demand entries. -/
theorem generate_totals_eq (rows : List Row) (dist_threshold : ℚ) :
    (generate_binary_coverage_from_dist_matrix rows dist_threshold).totalServiceableDemand =
      ((applyCoverage rows dist_threshold (initDemandEntries rows [])).map
        (fun p => p.2.serviceableDemand)).sum ∧
    (generate_binary_coverage_from_dist_matrix rows dist_threshold).totalDemand =
      ((applyCoverage rows dist_threshold (initDemandEntries rows [])).map
        (fun p => p.2.demand)).sum := by
  constructor <;>
    simp [generate_binary_coverage_from_dist_matrix, sumTotals_eq]

/-- C1: in the CoverageModel returned by
`generate_binary_coverage_from_dist_matrix`, a facility id is a member of a
demand unit's coverage set (the sub-dictionary stored under the facility
variable name) iff some input row pairs that facility id with that demand id
with distance ≤ the threshold, the comparison being inclusive. -/
theorem claim_c1_coverage_mem_iff (rows : List Row) (dist_threshold : ℚ)
    (did fid : String) (e : DemandEntry)
    (h : dictLookup
      (generate_binary_coverage_from_dist_matrix rows dist_threshold).demand did = some e) :
    fid ∈ e.coverage ↔
      ∃ r ∈ rows, r.demand_id = did ∧ r.facility_id = fid ∧
        r.distance ≤ dist_threshold := by
  obtain ⟨r, hr⟩ := generate_demand_lookup_inv h
  obtain ⟨e', he', -, -, hcov, -, -⟩ := generate_demand_lookup rows dist_threshold did hr
  have hpe : e' = e := by rw [h] at he'; exact (Option.some.inj he').symm
  subst hpe
  exact hcov fid

/-- Witness for C1 on the specification's example rows. -/
theorem claim_c1_witness :
    "F1" ∈ (⟨0, 10, 10, ["F1"]⟩ : DemandEntry).coverage ↔
      ∃ r ∈ exampleRows, r.demand_id = "D1" ∧ r.facility_id = "F1" ∧
        r.distance ≤ 5000 :=
  claim_c1_coverage_mem_iff exampleRows 5000 "D1" "F1" ⟨0, 10, 10, ["F1"]⟩ (by decide)

/-- C5: when the same demand id occurs in several rows, the weight stored for
it is the one of the first row seen; later rows never overwrite it. -/
theorem claim_c5_first_weight_wins (rows : List Row) (dist_threshold : ℚ) (did : String)
    (r : Row) (h : firstRowFor rows did = some r) :
    ∃ e, dictLookup
        (generate_binary_coverage_from_dist_matrix rows dist_threshold).demand did =
          some e ∧ e.demand = r.demand := by
  obtain ⟨e, he, -, hdem, -, -, -⟩ := generate_demand_lookup rows dist_threshold did h
  exact ⟨e, he, hdem⟩

/-- Witness for C5: rows bind D1 with weight 10 first and 99 later; the model
keeps 10. -/
theorem claim_c5_witness :
    ∃ e, dictLookup
        (generate_binary_coverage_from_dist_matrix duplicateWeightRows 4500).demand "D1" =
          some e ∧ e.demand = (⟨"F1", "D1", 10, 4000⟩ : Row).demand :=
  claim_c5_first_weight_wins duplicateWeightRows 4500 "D1" ⟨"F1", "D1", 10, 4000⟩ (by decide)

/-- C6: every demand entry's serviceable demand is 0 or exactly its own
weight, never a partial or summed value. -/
theorem claim_c6_serviceable_zero_or_full (rows : List Row) (dist_threshold : ℚ)
    (did : String) (e : DemandEntry)
    (h : dictLookup
      (generate_binary_coverage_from_dist_matrix rows dist_threshold).demand did = some e) :
    e.serviceableDemand = 0 ∨ e.serviceableDemand = e.demand := by
  obtain ⟨r, hr⟩ := generate_demand_lookup_inv h
  obtain ⟨e', he', -, hdem, -, hs1, hs2⟩ := generate_demand_lookup rows dist_threshold did hr
  have hpe : e' = e := by rw [h] at he'; exact (Option.some.inj he').symm
  subst hpe
  by_cases hc : ∃ r' ∈ rows, r'.demand_id = did ∧ r'.distance ≤ dist_threshold
  · exact Or.inr ((hs1 hc).trans hdem.symm)
  · exact Or.inl (hs2 fun r' h1 h2 h3 => hc ⟨r', h1, h2, h3⟩)

/-- Witness for C6 on the example model's D1 entry. -/
theorem claim_c6_witness :
    (⟨0, 10, 10, ["F1"]⟩ : DemandEntry).serviceableDemand = 0 ∨
    (⟨0, 10, 10, ["F1"]⟩ : DemandEntry).serviceableDemand =
      (⟨0, 10, 10, ["F1"]⟩ : DemandEntry).demand :=
  claim_c6_serviceable_zero_or_full exampleRows 5000 "D1" ⟨0, 10, 10, ["F1"]⟩ (by decide)

/-- C7: every demand id appearing in some row is a key of the demand mapping
exactly once, and no other key appears. -/
theorem claim_c7_demand_keys (rows : List Row) (dist_threshold : ℚ) :
    ((generate_binary_coverage_from_dist_matrix rows dist_threshold).demand.map
      Prod.fst).Nodup ∧
    ∀ did, did ∈ (generate_binary_coverage_from_dist_matrix rows
        dist_threshold).demand.map Prod.fst ↔ did ∈ rows.map Row.demand_id := by
  have hkeys : (generate_binary_coverage_from_dist_matrix rows dist_threshold).demand.map
      Prod.fst = (initDemandEntries rows []).map Prod.fst := by
    rw [generate_demand_eq, applyCoverage_keys]
  rw [hkeys]
  refine ⟨initDemandEntries_keys_nodup (by simp), fun did => ?_⟩
  rw [initDemandEntries_keys_mem]
  simp

/-- C2 counterexample: the claim quantifies over every input row list, but on
a single row with negative weight -5 and distance beyond the threshold the
model has totalServiceableDemand = 0 and totalDemand = -5, so
totalServiceableDemand ≤ totalDemand fails. -/
theorem claim_c2_counterexample :
    ¬ ((generate_binary_coverage_from_dist_matrix negativeRow 5).totalServiceableDemand ≤
       (generate_binary_coverage_from_dist_matrix negativeRow 5).totalDemand) := by
  simp +decide [generate_binary_coverage_from_dist_matrix, negativeRow, initDemandEntries,
    dictLookup, applyCoverage, markCovered, insertCovering, sumTotals, collectFacilityIds]

/-- C2 amended: when every row's demand weight is positive,
totalServiceableDemand ≤ totalDemand, with equality iff every demand unit has
at least one facility within the threshold distance. -/
theorem claim_c2_amended (rows : List Row) (dist_threshold : ℚ)
    (hpos : ∀ r ∈ rows, 0 < r.demand) :
    (generate_binary_coverage_from_dist_matrix rows dist_threshold).totalServiceableDemand ≤
      (generate_binary_coverage_from_dist_matrix rows dist_threshold).totalDemand ∧
    ((generate_binary_coverage_from_dist_matrix rows
        dist_threshold).totalServiceableDemand =
      (generate_binary_coverage_from_dist_matrix rows dist_threshold).totalDemand ↔
      ∀ did ∈ rows.map Row.demand_id,
        ∃ r ∈ rows, r.demand_id = did ∧ r.distance ≤ dist_threshold) := by
  obtain ⟨hts, htd⟩ := generate_totals_eq rows dist_threshold
  have hnd : ((applyCoverage rows dist_threshold (initDemandEntries rows [])).map
      Prod.fst).Nodup := by
    rw [applyCoverage_keys]
    exact initDemandEntries_keys_nodup (by simp)
  have hfact : ∀ p ∈ applyCoverage rows dist_threshold (initDemandEntries rows []),
      p.2.serviceableDemand ≤ p.2.demand ∧
      (p.2.serviceableDemand = p.2.demand ↔
        ∃ r' ∈ rows, r'.demand_id = p.1 ∧ r'.distance ≤ dist_threshold) := by
    intro p hp
    have hlook : dictLookup
        (generate_binary_coverage_from_dist_matrix rows dist_threshold).demand p.1 =
          some p.2 := by
      rw [generate_demand_eq]
      exact dictLookup_of_mem_nodup hnd hp
    obtain ⟨r, hr⟩ := generate_demand_lookup_inv hlook
    obtain ⟨e, he, -, hdem, -, hs1, hs2⟩ := generate_demand_lookup rows dist_threshold p.1 hr
    have hpe : e = p.2 := by rw [hlook] at he; exact (Option.some.inj he).symm
    subst hpe
    have hrpos : 0 < r.demand := hpos r (List.mem_of_find?_eq_some hr)
    by_cases hc : ∃ r' ∈ rows, r'.demand_id = p.1 ∧ r'.distance ≤ dist_threshold
    · have heq : p.2.serviceableDemand = p.2.demand := (hs1 hc).trans hdem.symm
      exact ⟨le_of_eq heq, by simp [heq, hc]⟩
    · have hz : p.2.serviceableDemand = 0 :=
        hs2 fun r' h1 h2 h3 => hc ⟨r', h1, h2, h3⟩
      have hposd : 0 < p.2.demand := hdem ▸ hrpos
      refine ⟨by rw [hz]; exact le_of_lt hposd, ?_, fun hcc => absurd hcc hc⟩
      intro hEq
      rw [hz] at hEq
      exact absurd hEq.symm (ne_of_gt hposd)
  obtain ⟨hle, hiff⟩ :=
    sum_le_sum_with_eq_iff (applyCoverage rows dist_threshold (initDemandEntries rows []))
      fun p hp => (hfact p hp).1
  rw [hts, htd]
  refine ⟨hle, hiff.trans ?_⟩
  constructor
  · intro hall did hdid
    have hdk : did ∈ (applyCoverage rows dist_threshold
        (initDemandEntries rows [])).map Prod.fst := by
      rw [applyCoverage_keys, initDemandEntries_keys_mem]
      exact Or.inr hdid
    obtain ⟨p, hp, hpfst⟩ := List.mem_map.mp hdk
    have hcc := (hfact p hp).2.mp (hall p hp)
    rw [hpfst] at hcc
    exact hcc
  · intro hall p hp
    refine (hfact p hp).2.mpr (hall p.1 ?_)
    have hmem : p.1 ∈ (applyCoverage rows dist_threshold
        (initDemandEntries rows [])).map Prod.fst := List.mem_map_of_mem Prod.fst hp
    rw [applyCoverage_keys, initDemandEntries_keys_mem] at hmem
    exact hmem.resolve_left (by simp)

/-- Witness for the amended C2 on the specification's example rows. -/
theorem claim_c2_witness :
    (generate_binary_coverage_from_dist_matrix exampleRows
        5000).totalServiceableDemand ≤
      (generate_binary_coverage_from_dist_matrix exampleRows 5000).totalDemand ∧
    ((generate_binary_coverage_from_dist_matrix exampleRows
        5000).totalServiceableDemand =
      (generate_binary_coverage_from_dist_matrix exampleRows 5000).totalDemand ↔
      ∀ did ∈ exampleRows.map Row.demand_id,
        ∃ r ∈ exampleRows, r.demand_id = did ∧ r.distance ≤ 5000) :=
  claim_c2_amended exampleRows 5000 (by decide)

/-- C3: when the model's totalDemand is zero — no demand units loaded — the
percentage computation fails with the defined division-by-zero error of the
runtime's float division, never silently producing NaN or infinity. -/
theorem claim_c3_zero_total_demand_errors (m : CoverageModel) (chosen : List String)
    (num_facility : ℕ) (h : m.totalDemand = 0) :
    summarize_result m chosen num_facility = .error "ZeroDivisionError" := by
  simp [summarize_result, floatDiv, h, Except.map]

/-- Witness for C3: the model built from no rows has zero total demand. -/
theorem claim_c3_witness :
    (generate_binary_coverage_from_dist_matrix [] 0).totalDemand = 0 ∧
    summarize_result (generate_binary_coverage_from_dist_matrix [] 0) [] 5 =
      .error "ZeroDivisionError" :=
  ⟨rfl, claim_c3_zero_total_demand_errors _ [] 5 rfl⟩

/-- C4: the summarizer adds each demand unit's full weight exactly once when
the chosen set meets its coverage set and zero otherwise, and the returned
record's percentage is 100 · total_demand_covered / totalDemand. -/
theorem claim_c4_summarize_correct (m : CoverageModel) (chosen : List String)
    (num_facility : ℕ) (h : m.totalDemand ≠ 0) :
    total_demand_covered m chosen =
      (m.demand.map (fun p =>
        if ∃ f ∈ chosen, f ∈ p.2.coverage then p.2.demand else 0)).sum ∧
    summarize_result m chosen num_facility = .ok
      { number_facility := num_facility,
        number_facility_chosen := chosen.length,
        set_facility_id_chosen := chosen,
        total_demand := m.totalDemand,
        percent_demand_coverage :=
          100 * total_demand_covered m chosen / m.totalDemand } := by
  constructor
  · rw [total_demand_covered, covered_foldl, zero_add]
    apply congrArg List.sum
    apply List.map_congr_left
    intro p hp
    by_cases hc : ∃ f ∈ chosen, f ∈ p.2.coverage
    · rw [if_pos (coversAny_iff.mpr hc), if_pos hc]
    · have hfalse : coversAny chosen p.2.coverage = false := by
        rw [← Bool.not_eq_true]
        exact fun hb => hc (coversAny_iff.mp hb)
      rw [if_neg (by simp [hfalse]), if_neg hc]
  · rw [summarize_result, floatDiv, if_neg h]
    rfl

/-- Witness for C4 on the example model with chosen set {F1}. -/
theorem claim_c4_witness :
    (generate_binary_coverage_from_dist_matrix exampleRows 5000).totalDemand ≠ 0 ∧
    (total_demand_covered (generate_binary_coverage_from_dist_matrix exampleRows 5000)
        ["F1"] =
      ((generate_binary_coverage_from_dist_matrix exampleRows 5000).demand.map (fun p =>
        if ∃ f ∈ ["F1"], f ∈ p.2.coverage then p.2.demand else 0)).sum ∧
    summarize_result (generate_binary_coverage_from_dist_matrix exampleRows 5000)
        ["F1"] 5 = .ok
      { number_facility := 5,
        number_facility_chosen := (["F1"] : List String).length,
        set_facility_id_chosen := ["F1"],
        total_demand := (generate_binary_coverage_from_dist_matrix exampleRows
          5000).totalDemand,
        percent_demand_coverage :=
          100 * total_demand_covered
            (generate_binary_coverage_from_dist_matrix exampleRows 5000) ["F1"] /
            (generate_binary_coverage_from_dist_matrix exampleRows 5000).totalDemand }) := by
  have h : (generate_binary_coverage_from_dist_matrix exampleRows 5000).totalDemand ≠ 0 := by
    simp +decide [generate_binary_coverage_from_dist_matrix, exampleRows, initDemandEntries,
      dictLookup, applyCoverage, markCovered, insertCovering, sumTotals,
      collectFacilityIds]
    norm_num
  exact ⟨h, claim_c4_summarize_correct _ ["F1"] 5 h⟩

/-- C8 counterexample: on the example rows with threshold 5000, F2's only row
for D1 has distance 6000 > 5000, so D1's coverage set is {F1} alone; the
chosen set {F2} therefore covers no demand unit at all, and the covered
demand is 0, not the claimed 10. -/
theorem claim_c8_counterexample :
    ¬ (total_demand_covered
        (generate_binary_coverage_from_dist_matrix exampleRows 5000) ["F2"] = 10) := by
  simp +decide [generate_binary_coverage_from_dist_matrix, exampleRows, initDemandEntries,
    dictLookup, applyCoverage, markCovered, insertCovering, sumTotals, collectFacilityIds,
    total_demand_covered, coversAny]

/-- C8 amended: the built model is exactly as the claim describes (D1 with
weight 10, serviceable 10, coverage {F1}; D2 with weight 5, serviceable 5,
coverage {F1}; totals 15 and 15) and {F1} yields covered demand 15 (100%) —
but {F2} intersects no coverage set, so it yields covered demand 0 (0%), not
10 (66.67%). -/
theorem claim_c8_amended_example :
    dictLookup (generate_binary_coverage_from_dist_matrix exampleRows 5000).demand "D1" =
      some ⟨0, 10, 10, ["F1"]⟩ ∧
    dictLookup (generate_binary_coverage_from_dist_matrix exampleRows 5000).demand "D2" =
      some ⟨0, 5, 5, ["F1"]⟩ ∧
    (generate_binary_coverage_from_dist_matrix exampleRows 5000).totalDemand = 15 ∧
    (generate_binary_coverage_from_dist_matrix exampleRows 5000).totalServiceableDemand =
      15 ∧
    total_demand_covered
      (generate_binary_coverage_from_dist_matrix exampleRows 5000) ["F1"] = 15 ∧
    summarize_result (generate_binary_coverage_from_dist_matrix exampleRows 5000)
      ["F1"] 5 = .ok ⟨5, 1, ["F1"], 15, 100⟩ ∧
    total_demand_covered
      (generate_binary_coverage_from_dist_matrix exampleRows 5000) ["F2"] = 0 ∧
    summarize_result (generate_binary_coverage_from_dist_matrix exampleRows 5000)
      ["F2"] 5 = .ok ⟨5, 1, ["F2"], 15, 0⟩ := by
  refine ⟨by decide, by decide, ?_, ?_, ?_, ?_, ?_, ?_⟩ <;>
    simp +decide [generate_binary_coverage_from_dist_matrix, exampleRows, initDemandEntries,
      dictLookup, applyCoverage, markCovered, insertCovering, sumTotals, collectFacilityIds,
      total_demand_covered, coversAny, summarize_result, floatDiv, Except.map] <;>
    norm_num

/-- C9: when the sample row at index 1 exists but lacks a required field, the
front end reports the error and terminates with exit status 0 — a
success-looking exit — and no CoverageModel is built. -/
theorem claim_c9_missing_field_exit_zero (raw : List RawRow) (parse : RawRow → Row)
    (service_dist : ℚ) (list_field_req : List String) (sample : RawRow)
    (h1 : raw.get? 1 = some sample)
    (h2 : ∃ f ∈ list_field_req, f ∉ sample.map Prod.fst) :
    binary_mclp_check_and_build raw parse service_dist list_field_req =
      .error (.exitCode 0) := by
  have hall : ¬ (list_field_req.all (fun f => rowHasField sample f) = true) := by
    rw [List.all_eq_true]
    intro hforall
    obtain ⟨f, hf, hnot⟩ := h2
    exact hnot (by simpa [rowHasField] using hforall f hf)
  rw [List.get?_eq_getElem?] at h1
  simp [binary_mclp_check_and_build, h1, hall]

/-- Witness for C9: the sample row at index 1 lacks the distance column. -/
theorem claim_c9_witness :
    binary_mclp_check_and_build [sampleRawGood, sampleRawBad] dummyParse 5000 defaultReq =
      .error (.exitCode 0) :=
  claim_c9_missing_field_exit_zero [sampleRawGood, sampleRawBad] dummyParse 5000 defaultReq
    sampleRawBad (by rfl) (by decide)

/-- C10: the field validation samples the row at index 1, so any input with
fewer than two data rows fails with the out-of-range index access before any
field check, even when every required column is present. -/
theorem claim_c10_short_input_index_error (raw : List RawRow) (parse : RawRow → Row)
    (service_dist : ℚ) (list_field_req : List String) (h : raw.length < 2) :
    binary_mclp_check_and_build raw parse service_dist list_field_req =
      .error .indexError := by
  have hnone : raw.get? 1 = none := List.get?_eq_none.mpr (by omega)
  rw [List.get?_eq_getElem?] at hnone
  simp [binary_mclp_check_and_build, hnone]

/-- Witness for C10: a single data row with all required columns still hits
the IndexError. -/
theorem claim_c10_witness :
    binary_mclp_check_and_build [sampleRawGood] dummyParse 5000 defaultReq =
      .error .indexError :=
  claim_c10_short_input_index_error [sampleRawGood] dummyParse 5000 defaultReq (by decide)

end PySpatialOpt
